import Mathlib

/-!
Verification development for the jit-visualizer repository.

The repository contains two near-identical single-page variants of a JIT
visualization. Their behavioral core is embedded here:

* the "real" variant (src/src/app/page.tsx, first page): measures an
  execution time externally and folds it into per-function statistics
  (callCount, totalTime, avgTime, firstTime, bestTime, optimizationLevel,
  status) — function executeFunction, lines 117-189; reset at lines 206-216;
* the "simulated" variant (same file, second page): synthesizes a duration
  from a pseudo-random draw and the current optimization level — function
  simulateExecution, lines 512-556; reset at lines 573-583;
* the shared log helper addLog (lines 113-115 and 508-510).

JavaScript numbers are embedded as rationals (the claims under study do not
depend on binary floating point rounding); wall-clock measurement and
Math.random draws are external inputs, so they appear as parameters of the
step functions. Log lines are modeled as events: the claims concern which
log calls fire, not the rendered text. The workload callback of the real
variant (field execute) is modeled as an opaque handle, since its only
observable effect — elapsed time — enters as the measured duration input.
-/

/-- Lifecycle status of a function record (the four JIT tiers). -/
inductive Status where
  | cold
  | warming
  | hot
  | optimized
deriving Repr, DecidableEq

/-- Rank of a status in the order cold < warming < hot < optimized. -/
def statusRank : Status → Nat
  | .cold => 0
  | .warming => 1
  | .hot => 2
  | .optimized => 3

/-- Log calls made inside the sampling steps: the first-execution line, the
new-best-time line (real variant only), and the three status-transition lines
(recorded with the status being entered). -/
inductive LogEvent where
  | firstExecution
  | newBest
  | transition (next : Status)
deriving Repr, DecidableEq

/-- Whether a log event is one of the status-transition notifications. -/
def isTransitionEvent : LogEvent → Bool
  | .transition _ => true
  | _ => false

/-- Number of status-transition notifications among the log events of one
sample. -/
def countTransitions (events : List LogEvent) : Nat :=
  (events.filter isTransitionEvent).length

/-- Threshold constant, page.tsx line 24 (both variants). -/
def OPTIMIZATION_THRESHOLD : Nat := 5

/-- Threshold constant, page.tsx line 25 (both variants). -/
def HOT_THRESHOLD : Nat := 10

/-- Threshold constant, page.tsx line 26 (both variants). -/
def OPTIMIZED_THRESHOLD : Nat := 20

/-- The status determined by a call count through the threshold chain used by
both variants (page.tsx lines 161-180 and 528-547), together with the initial
status cold that the chain leaves untouched below the first threshold. -/
def classify (callCount : Nat) : Status :=
  if OPTIMIZED_THRESHOLD ≤ callCount then .optimized
  else if HOT_THRESHOLD ≤ callCount then .hot
  else if OPTIMIZATION_THRESHOLD ≤ callCount then .warming
  else .cold

/-- JavaScript Array.prototype.slice with a negative argument: the last
(at most) n elements, in order. Used as slice(-30), slice(-20), slice(-50). -/
def sliceLast (n : Nat) (l : List α) : List α :=
  l.drop (l.length - n)

/-- The log appender (page.tsx lines 113-115 and 508-510): keep the last 50
lines, then append the timestamped message. The timestamp string is an
external input. -/
def addLog (prev : List String) (now message : String) : List String :=
  sliceLast 50 prev ++ [s!"[{now}] {message}"]

/-- Rounding to one decimal place, modeling Number(x.toFixed(1)) on the
positive values it is applied to (page.tsx lines 142-145). -/
def round1 (q : ℚ) : ℚ :=
  ((round (q * 10) : ℤ) : ℚ) / 10

namespace RealPage

/-- Per-function statistics of the real-measurement variant
(page.tsx lines 5-13). -/
structure ExecutionStats where
  callCount : Nat
  totalTime : ℚ
  avgTime : ℚ
  status : Status
  optimizationLevel : ℚ
  firstTime : Option ℚ
  bestTime : Option ℚ
deriving Repr, DecidableEq

/-- A monitored function of the real-measurement variant
(page.tsx lines 15-22). The workload callback is an opaque handle. -/
structure FunctionRecord where
  name : String
  code : String
  stats : ExecutionStats
  history : List ℚ
  execute : Nat
  iterations : Nat
deriving Repr, DecidableEq

/-- The zero statistics value used at creation and on reset
(page.tsx lines 77 and 210). -/
def initialStats : ExecutionStats :=
  { callCount := 0, totalTime := 0, avgTime := 0, status := .cold,
    optimizationLevel := 0, firstTime := none, bestTime := none }

/-- Lines 136-149: record the first execution time once, and update the best
time when the new duration is strictly lower, emitting the first-execution
log line and (when the one-decimal improvement percentage exceeds 5) the
new-best log line. -/
def trackTimes (stats : ExecutionStats) (executionTime : ℚ) :
    ExecutionStats × List LogEvent :=
  let first :=
    match stats.firstTime with
    | none => ({ stats with firstTime := some executionTime },
        [LogEvent.firstExecution])
    | some _ => (stats, [])
  let best :=
    match (first.1).bestTime with
    | none => ({ first.1 with bestTime := some executionTime },
        ([] : List LogEvent))
    | some b =>
      if executionTime < b then
        ({ first.1 with bestTime := some executionTime },
          if 5 < round1 ((b - executionTime) / b * 100) then
            [LogEvent.newBest]
          else [])
      else (first.1, [])
  (best.1, first.2 ++ best.2)

/-- Lines 151-153: bump the call count, add the duration to the total, and
recompute the average. -/
def accumulateTimes (stats : ExecutionStats) (executionTime : ℚ) :
    ExecutionStats :=
  let callCount := stats.callCount + 1
  let totalTime := stats.totalTime + executionTime
  { stats with
      callCount := callCount
      totalTime := totalTime
      avgTime := totalTime / (callCount : ℚ) }

/-- Lines 155-159: when the first time is set and positive, derive the
optimization level from the relative improvement of best over first, clamped
to [0, 5]; otherwise leave the level unchanged. -/
def updateOptimizationLevel (stats : ExecutionStats) : ExecutionStats :=
  match stats.firstTime with
  | some firstTime =>
    if 0 < firstTime then
      let best := stats.bestTime.getD firstTime
      { stats with optimizationLevel := min 5 (max 0 ((1 - best / firstTime) * 20)) }
    else stats
  | none => stats

/-- Lines 161-180: the threshold chain on the updated call count; each branch
logs its transition line only when the status it sets differs from the
current one. -/
def updateStatus (stats : ExecutionStats) : ExecutionStats × List LogEvent :=
  if OPTIMIZED_THRESHOLD ≤ stats.callCount then
    ({ stats with status := .optimized },
      if stats.status ≠ Status.optimized then [LogEvent.transition .optimized] else [])
  else if HOT_THRESHOLD ≤ stats.callCount then
    ({ stats with status := .hot },
      if stats.status ≠ Status.hot then [LogEvent.transition .hot] else [])
  else if OPTIMIZATION_THRESHOLD ≤ stats.callCount then
    ({ stats with status := .warming },
      if stats.status ≠ Status.warming then [LogEvent.transition .warming] else [])
  else (stats, [])

/-- One sample of the real variant applied to one record (the body of the
updater in executeFunction, lines 119-185), with the measured duration as
input. Returns the updated record and the log events emitted. -/
def executeFunctionRecord (func : FunctionRecord) (executionTime : ℚ) :
    FunctionRecord × List LogEvent :=
  let tracked := trackTimes func.stats executionTime
  let stats2 := accumulateTimes tracked.1 executionTime
  let stats3 := updateOptimizationLevel stats2
  let statused := updateStatus stats3
  ({ func with
      stats := statused.1
      history := sliceLast 30 func.history ++ [executionTime] },
    tracked.2 ++ statused.2)

/-- The collection-level update of executeFunction (lines 117-189): copy the
list, replace the record at the given index by its updated version. Out of
range indices leave the state unchanged (the page only calls it with valid
indices). -/
def executeFunction (funcs : List FunctionRecord) (funcIndex : Nat)
    (executionTime : ℚ) : List FunctionRecord × List LogEvent :=
  match funcs[funcIndex]? with
  | some func =>
    let stepped := executeFunctionRecord func executionTime
    (funcs.set funcIndex stepped.1, stepped.2)
  | none => (funcs, [])

/-- The reset of one record as performed by resetAll (lines 208-212): zero
statistics, empty history, all other fields kept. -/
def resetRecord (func : FunctionRecord) : FunctionRecord :=
  { func with stats := initialStats, history := [] }

/-- resetAll on the collection (lines 206-216): map the per-record reset over
every record. -/
def resetAll (funcs : List FunctionRecord) : List FunctionRecord :=
  funcs.map resetRecord

/-- Apply a list of measured durations to one record, one sample at a time,
collecting each sample's log events. -/
def runSamples (func : FunctionRecord) :
    List ℚ → FunctionRecord × List (List LogEvent)
  | [] => (func, [])
  | t :: ts =>
    let stepped := executeFunctionRecord func t
    let rest := runSamples stepped.1 ts
    (rest.1, stepped.2 :: rest.2)

end RealPage

namespace SimPage

/-- Per-function statistics of the simulated variant (page.tsx
lines 452-458). -/
structure ExecutionStats where
  callCount : Nat
  totalTime : ℚ
  avgTime : ℚ
  status : Status
  optimizationLevel : ℚ
deriving Repr, DecidableEq

/-- A monitored function of the simulated variant (page.tsx
lines 460-465). -/
structure FunctionRecord where
  name : String
  code : String
  stats : ExecutionStats
  history : List ℚ
deriving Repr, DecidableEq

/-- The zero statistics value used at creation and on reset (page.tsx
lines 482 and 577). -/
def initialStats : ExecutionStats :=
  { callCount := 0, totalTime := 0, avgTime := 0, status := .cold,
    optimizationLevel := 0 }

/-- Lines 519-522: the synthetic duration for one sample, from the
Math.random draw (rand, in [0,1)) and the current optimization level. -/
def simDuration (optimizationLevel rand : ℚ) : ℚ :=
  let baseTime := rand * 100 + 50
  let optimizationFactor := 1 - optimizationLevel * 0.15
  max 5 (baseTime * optimizationFactor)

/-- One sample of the simulated variant applied to one record (the body of
the updater in simulateExecution, lines 514-552), with the random draw as
input. Returns the updated record and the log events emitted. -/
def simulateExecutionRecord (func : FunctionRecord) (rand : ℚ) :
    FunctionRecord × List LogEvent :=
  let stats0 := func.stats
  let executionTime := simDuration stats0.optimizationLevel rand
  let stats1 := { stats0 with callCount := stats0.callCount + 1 }
  let stats2 := { stats1 with totalTime := stats1.totalTime + executionTime }
  let stats3 := { stats2 with avgTime := stats2.totalTime / (stats2.callCount : ℚ) }
  let statused :=
    if OPTIMIZED_THRESHOLD ≤ stats3.callCount then
      ({ stats3 with
          status := .optimized
          optimizationLevel := min 5 (stats3.optimizationLevel + 0.5) },
        if stats3.status ≠ Status.optimized then [LogEvent.transition .optimized] else [])
    else if HOT_THRESHOLD ≤ stats3.callCount then
      ({ stats3 with
          status := .hot
          optimizationLevel := min 4 (stats3.optimizationLevel + 0.3) },
        if stats3.status ≠ Status.hot then [LogEvent.transition .hot] else [])
    else if OPTIMIZATION_THRESHOLD ≤ stats3.callCount then
      ({ stats3 with
          status := .warming
          optimizationLevel := min 2 (stats3.optimizationLevel + 0.2) },
        if stats3.status ≠ Status.warming then [LogEvent.transition .warming] else [])
    else (stats3, [])
  ({ func with
      stats := statused.1
      history := sliceLast 20 func.history ++ [executionTime] },
    statused.2)

/-- The collection-level update of simulateExecution (lines 512-556). -/
def simulateExecution (funcs : List FunctionRecord) (funcIndex : Nat)
    (rand : ℚ) : List FunctionRecord × List LogEvent :=
  match funcs[funcIndex]? with
  | some func =>
    let stepped := simulateExecutionRecord func rand
    (funcs.set funcIndex stepped.1, stepped.2)
  | none => (funcs, [])

/-- The reset of one record as performed by resetAll (lines 575-579). -/
def resetRecord (func : FunctionRecord) : FunctionRecord :=
  { func with stats := initialStats, history := [] }

/-- resetAll on the collection (lines 573-583). -/
def resetAll (funcs : List FunctionRecord) : List FunctionRecord :=
  funcs.map resetRecord

/-- Apply a list of random draws to one record, one sample at a time,
collecting each sample's log events. -/
def runDraws (func : FunctionRecord) :
    List ℚ → FunctionRecord × List (List LogEvent)
  | [] => (func, [])
  | r :: rs =>
    let stepped := simulateExecutionRecord func r
    let rest := runDraws stepped.1 rs
    (rest.1, stepped.2 :: rest.2)

/-- The sequence of synthetic durations generated along a run: each sample
computes its duration from the level current at that sample. -/
def simTrace (func : FunctionRecord) : List ℚ → List ℚ
  | [] => []
  | r :: rs =>
    simDuration func.stats.optimizationLevel r ::
      simTrace (simulateExecutionRecord func r).1 rs

end SimPage

/-- The minimum of a list of durations, none for the empty list: the value
bestTime holds after the corresponding samples. -/
def bestOf : List ℚ → Option ℚ
  | [] => none
  | t :: ts => some (ts.foldl min t)

/-- A concrete record of the real variant, used to instantiate general
theorems at a closed input. -/
def sampleRealRecord : RealPage.FunctionRecord :=
  { name := "calculateSum", code := "function calculateSum(arr) ...",
    stats := RealPage.initialStats, history := [], execute := 0,
    iterations := 100 }

/-- A concrete record of the simulated variant, used to instantiate general
theorems at a closed input. -/
def sampleSimRecord : SimPage.FunctionRecord :=
  { name := "calculateSum", code := "function calculateSum(arr) ...",
    stats := SimPage.initialStats, history := [] }

/-- Reachability invariant of the real variant: after the samples in past
(oldest first) have been applied since the last reset, the record's fields
are determined by past as stated. -/
structure RealReach (func : RealPage.FunctionRecord) (past : List ℚ) : Prop where
  callCount : func.stats.callCount = past.length
  status : func.stats.status = classify past.length
  firstTime : func.stats.firstTime = past.head?
  bestTime : func.stats.bestTime = bestOf past
  history : func.history = sliceLast 31 past

/-- Reachability invariant of the simulated variant: n samples have been
applied since the last reset and past lists the synthetic durations they
produced (oldest first). -/
structure SimReach (func : SimPage.FunctionRecord) (n : Nat) (past : List ℚ) : Prop where
  callCount : func.stats.callCount = n
  status : func.stats.status = classify n
  level_nonneg : 0 ≤ func.stats.optimizationLevel
  level_le : func.stats.optimizationLevel ≤ 5
  history : func.history = sliceLast 21 past

lemma classify_small (n : Nat) (h : n < OPTIMIZATION_THRESHOLD) :
    classify n = Status.cold := by
  unfold classify OPTIMIZATION_THRESHOLD HOT_THRESHOLD OPTIMIZED_THRESHOLD at *
  split_ifs <;> first | rfl | omega

lemma classify_succ_small (n : Nat) (h : n + 1 < OPTIMIZATION_THRESHOLD) :
    classify n = classify (n + 1) := by
  rw [classify_small n (by omega), classify_small (n + 1) h]

lemma statusRank_classify_mono {m n : Nat} (h : m ≤ n) :
    statusRank (classify m) ≤ statusRank (classify n) := by
  unfold classify OPTIMIZATION_THRESHOLD HOT_THRESHOLD OPTIMIZED_THRESHOLD
  split_ifs <;> simp [statusRank] <;> omega

lemma length_sliceLast (n : Nat) (l : List α) :
    (sliceLast n l).length = min n l.length := by
  simp only [sliceLast, List.length_drop]
  omega

lemma sliceLast_nil (n : Nat) : sliceLast n ([] : List α) = [] := by
  simp [sliceLast]

lemma sliceLast_snoc (n : Nat) (l : List α) (t : α) :
    sliceLast n l ++ [t] = sliceLast (n + 1) (l ++ [t]) := by
  simp only [sliceLast, List.length_append, List.length_cons, List.length_nil,
    Nat.add_sub_add_right]
  rw [List.drop_append_of_le_length (Nat.sub_le _ _)]

lemma sliceLast_sliceLast (m n : Nat) (l : List α) :
    sliceLast m (sliceLast n l) = sliceLast (min m n) l := by
  simp only [sliceLast, List.drop_drop, List.length_drop]
  congr 1
  omega

lemma foldl_min_le (ts : List ℚ) (t : ℚ) : ts.foldl min t ≤ t := by
  induction ts generalizing t with
  | nil => exact le_refl t
  | cons x xs ih => exact le_trans (ih (min t x)) (min_le_left t x)

lemma bestOf_snoc (l : List ℚ) (t : ℚ) :
    bestOf (l ++ [t]) = some ((bestOf l).elim t (fun b => min b t)) := by
  cases l with
  | nil => simp [bestOf]
  | cons p ps => simp [bestOf, List.foldl_append]

lemma head?_snoc (l : List α) (t : α) :
    (l ++ [t]).head? = some (l.head?.getD t) := by
  cases l <;> simp


namespace RealPage

lemma trackTimes_fields (s : ExecutionStats) (t : ℚ) :
    (trackTimes s t).1.callCount = s.callCount ∧
    (trackTimes s t).1.totalTime = s.totalTime ∧
    (trackTimes s t).1.status = s.status ∧
    (trackTimes s t).1.optimizationLevel = s.optimizationLevel := by
  unfold trackTimes
  cases hf : s.firstTime <;> cases hb : s.bestTime <;>
    simp [hf, hb] <;> split_ifs <;> simp

@[simp] lemma trackTimes_callCount (s : ExecutionStats) (t : ℚ) :
    (trackTimes s t).1.callCount = s.callCount := (trackTimes_fields s t).1

@[simp] lemma trackTimes_totalTime (s : ExecutionStats) (t : ℚ) :
    (trackTimes s t).1.totalTime = s.totalTime := (trackTimes_fields s t).2.1

@[simp] lemma trackTimes_status (s : ExecutionStats) (t : ℚ) :
    (trackTimes s t).1.status = s.status := (trackTimes_fields s t).2.2.1

@[simp] lemma trackTimes_level (s : ExecutionStats) (t : ℚ) :
    (trackTimes s t).1.optimizationLevel = s.optimizationLevel :=
  (trackTimes_fields s t).2.2.2

@[simp] lemma trackTimes_firstTime (s : ExecutionStats) (t : ℚ) :
    (trackTimes s t).1.firstTime = some (s.firstTime.getD t) := by
  unfold trackTimes
  cases hf : s.firstTime <;> cases hb : s.bestTime <;>
    simp [hf, hb] <;> split_ifs <;> simp_all

@[simp] lemma trackTimes_bestTime (s : ExecutionStats) (t : ℚ) :
    (trackTimes s t).1.bestTime = some ((s.bestTime).elim t (fun b => min b t)) := by
  unfold trackTimes
  cases hf : s.firstTime <;> cases hb : s.bestTime <;> simp [hf, hb]
  case none.some b =>
    rcases lt_or_le t b with h | h
    · simp [h, min_eq_right h.le]
    · simp [not_lt.mpr h, hb, min_eq_left h]
  case some.some v b =>
    rcases lt_or_le t b with h | h
    · simp [h, min_eq_right h.le]
    · simp [not_lt.mpr h, hb, min_eq_left h]

@[simp] lemma trackTimes_events (s : ExecutionStats) (t : ℚ) :
    (trackTimes s t).2.filter isTransitionEvent = [] := by
  unfold trackTimes
  cases hf : s.firstTime <;> cases hb : s.bestTime <;>
    simp [hf, hb, isTransitionEvent] <;> split_ifs <;>
    simp [isTransitionEvent]

@[simp] lemma accumulateTimes_callCount (s : ExecutionStats) (t : ℚ) :
    (accumulateTimes s t).callCount = s.callCount + 1 := rfl

@[simp] lemma accumulateTimes_totalTime (s : ExecutionStats) (t : ℚ) :
    (accumulateTimes s t).totalTime = s.totalTime + t := rfl

@[simp] lemma accumulateTimes_status (s : ExecutionStats) (t : ℚ) :
    (accumulateTimes s t).status = s.status := rfl

@[simp] lemma accumulateTimes_level (s : ExecutionStats) (t : ℚ) :
    (accumulateTimes s t).optimizationLevel = s.optimizationLevel := rfl

@[simp] lemma accumulateTimes_firstTime (s : ExecutionStats) (t : ℚ) :
    (accumulateTimes s t).firstTime = s.firstTime := rfl

@[simp] lemma accumulateTimes_bestTime (s : ExecutionStats) (t : ℚ) :
    (accumulateTimes s t).bestTime = s.bestTime := rfl

lemma updateOptimizationLevel_fields (s : ExecutionStats) :
    (updateOptimizationLevel s).callCount = s.callCount ∧
    (updateOptimizationLevel s).status = s.status ∧
    (updateOptimizationLevel s).firstTime = s.firstTime ∧
    (updateOptimizationLevel s).bestTime = s.bestTime := by
  unfold updateOptimizationLevel
  cases hf : s.firstTime
  · simp [hf]
  · simp only [hf]
    split_ifs <;> simp [hf]

@[simp] lemma updateOptimizationLevel_callCount (s : ExecutionStats) :
    (updateOptimizationLevel s).callCount = s.callCount :=
  (updateOptimizationLevel_fields s).1

@[simp] lemma updateOptimizationLevel_status (s : ExecutionStats) :
    (updateOptimizationLevel s).status = s.status :=
  (updateOptimizationLevel_fields s).2.1

@[simp] lemma updateOptimizationLevel_firstTime (s : ExecutionStats) :
    (updateOptimizationLevel s).firstTime = s.firstTime :=
  (updateOptimizationLevel_fields s).2.2.1

@[simp] lemma updateOptimizationLevel_bestTime (s : ExecutionStats) :
    (updateOptimizationLevel s).bestTime = s.bestTime :=
  (updateOptimizationLevel_fields s).2.2.2

lemma updateOptimizationLevel_level (s : ExecutionStats) (f : ℚ)
    (hf : s.firstTime = some f) :
    (updateOptimizationLevel s).optimizationLevel =
      if 0 < f then min 5 (max 0 ((1 - (s.bestTime.getD f) / f) * 20))
      else s.optimizationLevel := by
  unfold updateOptimizationLevel
  simp [hf]
  split_ifs <;> simp

lemma updateStatus_fields (s : ExecutionStats) :
    (updateStatus s).1.callCount = s.callCount ∧
    (updateStatus s).1.firstTime = s.firstTime ∧
    (updateStatus s).1.bestTime = s.bestTime ∧
    (updateStatus s).1.optimizationLevel = s.optimizationLevel := by
  unfold updateStatus
  split_ifs <;> simp

@[simp] lemma updateStatus_callCount (s : ExecutionStats) :
    (updateStatus s).1.callCount = s.callCount := (updateStatus_fields s).1

@[simp] lemma updateStatus_firstTime (s : ExecutionStats) :
    (updateStatus s).1.firstTime = s.firstTime := (updateStatus_fields s).2.1

@[simp] lemma updateStatus_bestTime (s : ExecutionStats) :
    (updateStatus s).1.bestTime = s.bestTime := (updateStatus_fields s).2.2.1

@[simp] lemma updateStatus_level (s : ExecutionStats) :
    (updateStatus s).1.optimizationLevel = s.optimizationLevel :=
  (updateStatus_fields s).2.2.2

lemma updateStatus_status (s : ExecutionStats) :
    (updateStatus s).1.status =
      if OPTIMIZATION_THRESHOLD ≤ s.callCount then classify s.callCount
      else s.status := by
  unfold updateStatus classify OPTIMIZATION_THRESHOLD HOT_THRESHOLD OPTIMIZED_THRESHOLD
  split_ifs <;> first | rfl | omega

lemma updateStatus_events (s : ExecutionStats) :
    countTransitions (updateStatus s).2 =
      if OPTIMIZATION_THRESHOLD ≤ s.callCount ∧ s.status ≠ classify s.callCount
      then 1 else 0 := by
  unfold updateStatus classify countTransitions OPTIMIZATION_THRESHOLD
    HOT_THRESHOLD OPTIMIZED_THRESHOLD
  split_ifs <;> simp_all [isTransitionEvent] <;> omega

end RealPage

namespace RealPage

@[simp] lemma executeFunctionRecord_stats (func : FunctionRecord) (t : ℚ) :
    (executeFunctionRecord func t).1.stats =
      (updateStatus (updateOptimizationLevel
        (accumulateTimes (trackTimes func.stats t).1 t))).1 := rfl

@[simp] lemma executeFunctionRecord_history (func : FunctionRecord) (t : ℚ) :
    (executeFunctionRecord func t).1.history =
      sliceLast 30 func.history ++ [t] := rfl

@[simp] lemma executeFunctionRecord_name (func : FunctionRecord) (t : ℚ) :
    (executeFunctionRecord func t).1.name = func.name := rfl

@[simp] lemma executeFunctionRecord_code (func : FunctionRecord) (t : ℚ) :
    (executeFunctionRecord func t).1.code = func.code := rfl

@[simp] lemma executeFunctionRecord_execute (func : FunctionRecord) (t : ℚ) :
    (executeFunctionRecord func t).1.execute = func.execute := rfl

@[simp] lemma executeFunctionRecord_iterations (func : FunctionRecord) (t : ℚ) :
    (executeFunctionRecord func t).1.iterations = func.iterations := rfl

@[simp] lemma executeFunctionRecord_events (func : FunctionRecord) (t : ℚ) :
    (executeFunctionRecord func t).2 =
      (trackTimes func.stats t).2 ++
        (updateStatus (updateOptimizationLevel
          (accumulateTimes (trackTimes func.stats t).1 t))).2 := rfl

end RealPage

lemma resetRecord_reach (func : RealPage.FunctionRecord) :
    RealReach (RealPage.resetRecord func) [] :=
  ⟨rfl, rfl, rfl, rfl, rfl⟩

lemma executeFunctionRecord_reach {func : RealPage.FunctionRecord}
    {past : List ℚ} (t : ℚ) (h : RealReach func past) :
    RealReach (RealPage.executeFunctionRecord func t).1 (past ++ [t]) ∧
    countTransitions (RealPage.executeFunctionRecord func t).2 =
      (if classify past.length ≠ classify (past.length + 1) then 1 else 0) := by
  obtain ⟨hc, hs, hf, hb, hh⟩ := h
  refine ⟨⟨?_, ?_, ?_, ?_, ?_⟩, ?_⟩
  · simp [hc]
  · rw [RealPage.executeFunctionRecord_stats, RealPage.updateStatus_status]
    simp only [RealPage.updateOptimizationLevel_callCount,
      RealPage.accumulateTimes_callCount, RealPage.trackTimes_callCount,
      RealPage.updateOptimizationLevel_status, RealPage.accumulateTimes_status,
      RealPage.trackTimes_status, hc, hs, List.length_append, List.length_cons,
      List.length_nil]
    split_ifs with h5
    · rfl
    · exact classify_succ_small past.length (by
        unfold OPTIMIZATION_THRESHOLD at h5 ⊢; omega)
  · simp only [RealPage.executeFunctionRecord_stats, RealPage.updateStatus_firstTime,
      RealPage.updateOptimizationLevel_firstTime, RealPage.accumulateTimes_firstTime,
      RealPage.trackTimes_firstTime, hf, head?_snoc]
  · simp [hb, bestOf_snoc]
  · rw [RealPage.executeFunctionRecord_history, hh, sliceLast_sliceLast]
    norm_num [sliceLast_snoc]
  · rw [RealPage.executeFunctionRecord_events]
    unfold countTransitions
    rw [List.filter_append, RealPage.trackTimes_events, List.nil_append]
    have := RealPage.updateStatus_events
      (RealPage.updateOptimizationLevel
        (RealPage.accumulateTimes (RealPage.trackTimes func.stats t).1 t))
    unfold countTransitions at this
    rw [this]
    simp only [RealPage.updateOptimizationLevel_callCount,
      RealPage.accumulateTimes_callCount, RealPage.trackTimes_callCount,
      RealPage.updateOptimizationLevel_status, RealPage.accumulateTimes_status,
      RealPage.trackTimes_status, hc, hs]
    split_ifs with h1 h2 h2
    · rfl
    · exact absurd h1.2 h2
    · exfalso
      rcases Nat.lt_or_ge (past.length + 1) OPTIMIZATION_THRESHOLD with hlt | hge
      · exact h2 (classify_succ_small past.length hlt)
      · exact h1 ⟨hge, h2⟩
    · rfl

lemma runSamples_reach (ts : List ℚ) (func : RealPage.FunctionRecord)
    (past : List ℚ) (h : RealReach func past) :
    RealReach (RealPage.runSamples func ts).1 (past ++ ts) ∧
    (RealPage.runSamples func ts).2.map countTransitions =
      (List.range ts.length).map
        (fun k => if classify (past.length + k) ≠ classify (past.length + k + 1)
          then 1 else 0) := by
  induction ts generalizing func past with
  | nil =>
    simpa [RealPage.runSamples] using h
  | cons t ts ih =>
    obtain ⟨hstep, hev⟩ := executeFunctionRecord_reach t h
    obtain ⟨hrun, hmap⟩ := ih (RealPage.executeFunctionRecord func t).1 (past ++ [t]) hstep
    rw [List.append_assoc, List.singleton_append] at hrun
    constructor
    · simpa [RealPage.runSamples] using hrun
    · simp only [RealPage.runSamples, List.map_cons, List.length_cons,
        List.range_succ_eq_map, List.map_map]
    
      rw [hev, hmap]
      congr 1
      apply List.map_congr_left
      intro a _
      have h1 : (past ++ [t]).length + a = past.length + (a + 1) := by
        simp only [List.length_append, List.length_cons, List.length_nil]
        omega
      simp only [Function.comp_apply, h1, Nat.succ_eq_add_one]

namespace SimPage

@[simp] lemma simulateExecutionRecord_name (func : FunctionRecord) (r : ℚ) :
    (simulateExecutionRecord func r).1.name = func.name := rfl

@[simp] lemma simulateExecutionRecord_code (func : FunctionRecord) (r : ℚ) :
    (simulateExecutionRecord func r).1.code = func.code := rfl

@[simp] lemma simulateExecutionRecord_history (func : FunctionRecord) (r : ℚ) :
    (simulateExecutionRecord func r).1.history =
      sliceLast 20 func.history ++ [simDuration func.stats.optimizationLevel r] := rfl

@[simp] lemma simulateExecutionRecord_callCount (func : FunctionRecord) (r : ℚ) :
    (simulateExecutionRecord func r).1.stats.callCount =
      func.stats.callCount + 1 := by
  unfold simulateExecutionRecord
  dsimp only
  split_ifs <;> rfl

lemma simulateExecutionRecord_status (func : FunctionRecord) (r : ℚ) :
    (simulateExecutionRecord func r).1.stats.status =
      if OPTIMIZATION_THRESHOLD ≤ func.stats.callCount + 1 then
        classify (func.stats.callCount + 1)
      else func.stats.status := by
  unfold simulateExecutionRecord classify OPTIMIZATION_THRESHOLD HOT_THRESHOLD
    OPTIMIZED_THRESHOLD
  dsimp only
  split_ifs <;> first | rfl | omega

lemma simulateExecutionRecord_level (func : FunctionRecord) (r : ℚ) :
    (simulateExecutionRecord func r).1.stats.optimizationLevel =
      if OPTIMIZED_THRESHOLD ≤ func.stats.callCount + 1 then
        min 5 (func.stats.optimizationLevel + 0.5)
      else if HOT_THRESHOLD ≤ func.stats.callCount + 1 then
        min 4 (func.stats.optimizationLevel + 0.3)
      else if OPTIMIZATION_THRESHOLD ≤ func.stats.callCount + 1 then
        min 2 (func.stats.optimizationLevel + 0.2)
      else func.stats.optimizationLevel := by
  unfold simulateExecutionRecord
  dsimp only
  split_ifs <;> rfl

lemma simulateExecutionRecord_events (func : FunctionRecord) (r : ℚ) :
    countTransitions (simulateExecutionRecord func r).2 =
      if OPTIMIZATION_THRESHOLD ≤ func.stats.callCount + 1 ∧
          func.stats.status ≠ classify (func.stats.callCount + 1)
      then 1 else 0 := by
  unfold simulateExecutionRecord classify countTransitions OPTIMIZATION_THRESHOLD
    HOT_THRESHOLD OPTIMIZED_THRESHOLD
  dsimp only
  split_ifs <;> simp_all [isTransitionEvent] <;> omega

end SimPage

lemma simResetRecord_reach (func : SimPage.FunctionRecord) :
    SimReach (SimPage.resetRecord func) 0 [] :=
  ⟨rfl, rfl, le_refl 0, by norm_num [SimPage.resetRecord, SimPage.initialStats], rfl⟩

lemma simulateExecutionRecord_reach {func : SimPage.FunctionRecord} {n : Nat}
    {past : List ℚ} (r : ℚ) (h : SimReach func n past) :
    SimReach (SimPage.simulateExecutionRecord func r).1 (n + 1)
      (past ++ [SimPage.simDuration func.stats.optimizationLevel r]) ∧
    countTransitions (SimPage.simulateExecutionRecord func r).2 =
      (if classify n ≠ classify (n + 1) then 1 else 0) := by
  obtain ⟨hc, hs, hl0, hl5, hh⟩ := h
  refine ⟨⟨?_, ?_, ?_, ?_, ?_⟩, ?_⟩
  · simp [hc]
  · rw [SimPage.simulateExecutionRecord_status, hc, hs]
    split_ifs with h5
    · rfl
    · exact classify_succ_small n (by unfold OPTIMIZATION_THRESHOLD at h5 ⊢; omega)
  · rw [SimPage.simulateExecutionRecord_level]
    split_ifs
    · exact le_min (by norm_num) (by linarith)
    · exact le_min (by norm_num) (by linarith)
    · exact le_min (by norm_num) (by linarith)
    · exact hl0
  · rw [SimPage.simulateExecutionRecord_level]
    split_ifs
    · exact min_le_left _ _
    · exact le_trans (min_le_left _ _) (by norm_num)
    · exact le_trans (min_le_left _ _) (by norm_num)
    · exact hl5
  · rw [SimPage.simulateExecutionRecord_history, hh, sliceLast_sliceLast]
    norm_num [sliceLast_snoc]
  · rw [SimPage.simulateExecutionRecord_events, hc, hs]
    split_ifs with h1 h2 h2
    · rfl
    · exact absurd h1.2 h2
    · exfalso
      rcases Nat.lt_or_ge (n + 1) OPTIMIZATION_THRESHOLD with hlt | hge
      · exact h2 (classify_succ_small n hlt)
      · exact h1 ⟨hge, h2⟩
    · rfl

lemma simTrace_length (rs : List ℚ) (func : SimPage.FunctionRecord) :
    (SimPage.simTrace func rs).length = rs.length := by
  induction rs generalizing func with
  | nil => rfl
  | cons r rs ih => simp [SimPage.simTrace, ih]

lemma runDraws_reach (rs : List ℚ) (func : SimPage.FunctionRecord) (n : Nat)
    (past : List ℚ) (h : SimReach func n past) :
    SimReach (SimPage.runDraws func rs).1 (n + rs.length)
      (past ++ SimPage.simTrace func rs) ∧
    (SimPage.runDraws func rs).2.map countTransitions =
      (List.range rs.length).map
        (fun k => if classify (n + k) ≠ classify (n + k + 1) then 1 else 0) := by
  induction rs generalizing func n past with
  | nil =>
    simpa [SimPage.runDraws, SimPage.simTrace] using h
  | cons r rs ih =>
    obtain ⟨hstep, hev⟩ := simulateExecutionRecord_reach r h
    obtain ⟨hrun, hmap⟩ := ih (SimPage.simulateExecutionRecord func r).1 (n + 1)
      (past ++ [SimPage.simDuration func.stats.optimizationLevel r]) hstep
    rw [List.append_assoc, List.singleton_append] at hrun
    constructor
    · have hgoal :
        SimReach (SimPage.runDraws func (r :: rs)).1 (n + 1 + rs.length)
          (past ++
            (SimPage.simDuration func.stats.optimizationLevel r ::
              SimPage.simTrace (SimPage.simulateExecutionRecord func r).1 rs)) := hrun
      have harith : n + 1 + rs.length = n + (rs.length + 1) := by omega
      rw [harith] at hgoal
      simpa [SimPage.runDraws, SimPage.simTrace] using hgoal
    · simp only [SimPage.runDraws, List.map_cons, List.length_cons,
        List.range_succ_eq_map, List.map_map]
      rw [hev, hmap]
      congr 1
      apply List.map_congr_left
      intro a _
      have h1 : n + 1 + a = n + (a + 1) := by omega
      simp only [Function.comp_apply, h1, Nat.succ_eq_add_one]

lemma addLog_length (prev : List String) (now message : String) :
    (addLog prev now message).length = min (prev.length + 1) 51 := by
  simp only [addLog, List.length_append, List.length_cons, List.length_nil,
    length_sliceLast]
  omega

lemma foldl_addLog_length (msgs : List String) (now : String)
    (prev : List String) (h : prev.length ≤ 51) :
    (msgs.foldl (fun l m => addLog l now m) prev).length =
      min (prev.length + msgs.length) 51 := by
  induction msgs generalizing prev with
  | nil =>
    simp only [List.foldl_nil, List.length_nil, Nat.add_zero]
    omega
  | cons m ms ih =>
    rw [List.foldl_cons, ih (addLog prev now m) (by rw [addLog_length]; omega),
      addLog_length]
    simp only [List.length_cons]
    omega

/-- C1: starting from the reset state and applying samples one at a time, in
both variants the call count after n samples is n and the status equals the
classification of the updated call count by the fixed thresholds (below 5
cold, in [5,10) warming, in [10,20) hot, from 20 on optimized), and that
classification is monotone non-decreasing in the order
cold < warming < hot < optimized, so the status never regresses without an
explicit reset. -/
theorem claim1_status_threshold_monotone :
    (∀ (func : RealPage.FunctionRecord) (ts : List ℚ),
      (RealPage.runSamples (RealPage.resetRecord func) ts).1.stats.callCount =
        ts.length ∧
      (RealPage.runSamples (RealPage.resetRecord func) ts).1.stats.status =
        classify ts.length) ∧
    (∀ (func : SimPage.FunctionRecord) (rs : List ℚ),
      (SimPage.runDraws (SimPage.resetRecord func) rs).1.stats.callCount =
        rs.length ∧
      (SimPage.runDraws (SimPage.resetRecord func) rs).1.stats.status =
        classify rs.length) ∧
    (∀ n : Nat,
      (n < OPTIMIZATION_THRESHOLD → classify n = Status.cold) ∧
      (OPTIMIZATION_THRESHOLD ≤ n → n < HOT_THRESHOLD →
        classify n = Status.warming) ∧
      (HOT_THRESHOLD ≤ n → n < OPTIMIZED_THRESHOLD → classify n = Status.hot) ∧
      (OPTIMIZED_THRESHOLD ≤ n → classify n = Status.optimized)) ∧
    (∀ m n : Nat, m ≤ n → statusRank (classify m) ≤ statusRank (classify n)) := by
  refine ⟨?_, ?_, ?_, fun m n h => statusRank_classify_mono h⟩
  · intro func ts
    obtain ⟨hreach, -⟩ :=
      runSamples_reach ts (RealPage.resetRecord func) [] (resetRecord_reach func)
    rw [List.nil_append] at hreach
    exact ⟨hreach.callCount, hreach.status⟩
  · intro func rs
    obtain ⟨hreach, -⟩ :=
      runDraws_reach rs (SimPage.resetRecord func) 0 [] (simResetRecord_reach func)
    exact ⟨by simpa using hreach.callCount, by simpa using hreach.status⟩
  · intro n
    unfold classify OPTIMIZATION_THRESHOLD HOT_THRESHOLD OPTIMIZED_THRESHOLD
    refine ⟨fun h1 => ?_, fun h1 h2 => ?_, fun h1 h2 => ?_, fun h1 => ?_⟩ <;>
      (split_ifs <;> first | rfl | omega)

/-- Witness for C1: concrete runs and concrete threshold instances. -/
theorem claim1_status_threshold_monotone_witness :
    (RealPage.runSamples (RealPage.resetRecord sampleRealRecord)
        [1, 2, 3, 4, 5]).1.stats.status = classify 5 ∧
    OPTIMIZATION_THRESHOLD ≤ 7 ∧ 7 < HOT_THRESHOLD ∧
    classify 7 = Status.warming ∧
    3 ≤ 12 ∧ statusRank (classify 3) ≤ statusRank (classify 12) := by
  refine ⟨?_, by decide, by decide, ?_, by decide, ?_⟩
  · simpa using (claim1_status_threshold_monotone.1 sampleRealRecord [1, 2, 3, 4, 5]).2
  · exact (claim1_status_threshold_monotone.2.2.1 7).2.1 (by decide) (by decide)
  · exact claim1_status_threshold_monotone.2.2.2 3 12 (by decide)

/-- C2: starting from the reset state, in both variants the number of
status-transition log lines emitted at the k-th sample (0-based) is exactly
one when the threshold classification changes between call counts k and k+1
and exactly zero otherwise — one notification per status change, and never
again at a later sample whose resulting status equals the one it already
had. -/
theorem claim2_transition_notification_once_per_change :
    (∀ (func : RealPage.FunctionRecord) (ts : List ℚ),
      (RealPage.runSamples (RealPage.resetRecord func) ts).2.map countTransitions =
        (List.range ts.length).map
          (fun k => if classify k ≠ classify (k + 1) then 1 else 0)) ∧
    (∀ (func : SimPage.FunctionRecord) (rs : List ℚ),
      (SimPage.runDraws (SimPage.resetRecord func) rs).2.map countTransitions =
        (List.range rs.length).map
          (fun k => if classify k ≠ classify (k + 1) then 1 else 0)) := by
  constructor
  · intro func ts
    have h :=
      (runSamples_reach ts (RealPage.resetRecord func) [] (resetRecord_reach func)).2
    simpa using h
  · intro func rs
    have h :=
      (runDraws_reach rs (SimPage.resetRecord func) 0 [] (simResetRecord_reach func)).2
    simpa using h

/-- C3 counterexample: the stated bounds 30 (real variant) and 20 (simulated
variant) are exceeded — after 31 identical samples the real-variant history
has 31 entries, and after 21 draws the simulated-variant history has 21
entries, because the code keeps the last 30 (resp. 20) entries and then
appends one more. -/
theorem claim3_history_bound_counterexample :
    ¬ ((RealPage.runSamples (RealPage.resetRecord sampleRealRecord)
          (List.replicate 31 (1 : ℚ))).1.history.length ≤ 30) ∧
    ¬ ((SimPage.runDraws (SimPage.resetRecord sampleSimRecord)
          (List.replicate 21 (0 : ℚ))).1.history.length ≤ 20) := by
  constructor
  · intro h30
    have hr := (runSamples_reach (List.replicate 31 (1 : ℚ))
      (RealPage.resetRecord sampleRealRecord) [] (resetRecord_reach _)).1.history
    rw [List.nil_append] at hr
    rw [hr, length_sliceLast] at h30
    simp at h30
  · intro h20
    have hs := (runDraws_reach (List.replicate 21 (0 : ℚ))
      (SimPage.resetRecord sampleSimRecord) 0 [] (simResetRecord_reach _)).1.history
    rw [List.nil_append] at hs
    rw [hs, length_sliceLast, simTrace_length] at h20
    simp at h20

/-- C3 amended: the history bound is 31 in the real variant and 21 in the
simulated variant (the code keeps the last 30 resp. 20 entries and then
appends the new one); within that bound the history is exactly the trailing
window of the durations in order — the oldest entry is the one evicted when
the window is full (FIFO). -/
theorem claim3_history_bound_amended :
    (∀ (func : RealPage.FunctionRecord) (ts : List ℚ),
      (RealPage.runSamples (RealPage.resetRecord func) ts).1.history =
        sliceLast 31 ts ∧
      (RealPage.runSamples (RealPage.resetRecord func) ts).1.history.length ≤ 31) ∧
    (∀ (func : SimPage.FunctionRecord) (rs : List ℚ),
      (SimPage.runDraws (SimPage.resetRecord func) rs).1.history =
        sliceLast 21 (SimPage.simTrace (SimPage.resetRecord func) rs) ∧
      (SimPage.runDraws (SimPage.resetRecord func) rs).1.history.length ≤ 21) ∧
    (∀ (n : Nat) (l : List ℚ), sliceLast n l = l.drop (l.length - n)) := by
  refine ⟨?_, ?_, fun n l => rfl⟩
  · intro func ts
    have hr := (runSamples_reach ts (RealPage.resetRecord func) []
      (resetRecord_reach func)).1.history
    rw [List.nil_append] at hr
    refine ⟨hr, ?_⟩
    rw [hr, length_sliceLast]
    omega
  · intro func rs
    have hs := (runDraws_reach rs (SimPage.resetRecord func) 0 []
      (simResetRecord_reach func)).1.history
    rw [List.nil_append] at hs
    refine ⟨hs, ?_⟩
    rw [hs, length_sliceLast]
    omega

/-- C4: in the real-variant accumulator, for every sample sequence since
reset, the first sample sets firstTime and bestTime to the same duration,
firstTime keeps that value, bestTime is the minimum of all durations so far
(so bestTime is at most firstTime once both are set), and per step firstTime
is never overwritten while bestTime is replaced only by a strictly lower
duration. -/
theorem claim4_best_le_first :
    (∀ (func : RealPage.FunctionRecord) (t : ℚ) (ts : List ℚ),
      (RealPage.runSamples (RealPage.resetRecord func) (t :: ts)).1.stats.firstTime =
        some t ∧
      (RealPage.runSamples (RealPage.resetRecord func) (t :: ts)).1.stats.bestTime =
        some (ts.foldl min t) ∧
      ts.foldl min t ≤ t) ∧
    (∀ (func : RealPage.FunctionRecord) (t f : ℚ),
      func.stats.firstTime = some f →
      (RealPage.executeFunctionRecord func t).1.stats.firstTime = some f) ∧
    (∀ (func : RealPage.FunctionRecord) (t b : ℚ),
      func.stats.bestTime = some b →
      (RealPage.executeFunctionRecord func t).1.stats.bestTime =
        some (if t < b then t else b)) := by
  refine ⟨?_, ?_, ?_⟩
  · intro func t ts
    obtain ⟨hreach, -⟩ := runSamples_reach (t :: ts) (RealPage.resetRecord func)
      [] (resetRecord_reach func)
    rw [List.nil_append] at hreach
    exact ⟨hreach.firstTime, hreach.bestTime, foldl_min_le ts t⟩
  · intro func t f hf
    simp [hf]
  · intro func t b hb
    rcases lt_or_le t b with h | h
    · simp [hb, h, min_eq_right h.le]
    · simp [hb, not_lt.mpr h, min_eq_left h]

/-- Witness for C4 at concrete inputs. -/
theorem claim4_best_le_first_witness :
    (RealPage.runSamples (RealPage.resetRecord sampleRealRecord)
        [3, 2, 5]).1.stats.firstTime = some 3 ∧
    ({ sampleRealRecord with
        stats := { RealPage.initialStats with
          firstTime := some 4, bestTime := some 4 } } :
      RealPage.FunctionRecord).stats.firstTime = some 4 ∧
    (RealPage.executeFunctionRecord
      { sampleRealRecord with
        stats := { RealPage.initialStats with
          firstTime := some 4, bestTime := some 4 } } 2).1.stats.firstTime =
        some 4 ∧
    (RealPage.executeFunctionRecord
      { sampleRealRecord with
        stats := { RealPage.initialStats with
          firstTime := some 4, bestTime := some 4 } } 2).1.stats.bestTime =
        some (if (2 : ℚ) < 4 then 2 else 4) := by
  refine ⟨?_, rfl, ?_, ?_⟩
  · simpa using (claim4_best_le_first.1 sampleRealRecord 3 [2, 5]).1
  · exact claim4_best_le_first.2.1 _ 2 4 rfl
  · exact claim4_best_le_first.2.2 _ 2 4 rfl

/-- C5: the simulated timer returns max(5, (rand*100 + 50) * (1 - level*0.15))
for a Math.random draw rand in [0,1) (rand*100 playing the role of a uniform
draw on [0,100)); the pre-floor base value rand*100 + 50 lies in [50, 150)
— in particular with level 0 the pre-floor product does — and the result is
at least 5, hence positive and never zero. -/
theorem claim5_sim_duration_range :
    ∀ (optimizationLevel rand : ℚ), 0 ≤ rand → rand < 1 →
      SimPage.simDuration optimizationLevel rand =
        max 5 ((rand * 100 + 50) * (1 - optimizationLevel * 0.15)) ∧
      5 ≤ SimPage.simDuration optimizationLevel rand ∧
      0 < SimPage.simDuration optimizationLevel rand ∧
      SimPage.simDuration optimizationLevel rand ≠ 0 ∧
      (50 ≤ rand * 100 + 50 ∧ rand * 100 + 50 < 150) ∧
      SimPage.simDuration 0 rand = max 5 (rand * 100 + 50) := by
  intro optimizationLevel rand h0 h1
  have h5 : 5 ≤ SimPage.simDuration optimizationLevel rand :=
    le_max_left 5 ((rand * 100 + 50) * (1 - optimizationLevel * 0.15))
  have hpos : 0 < SimPage.simDuration optimizationLevel rand :=
    lt_of_lt_of_le (by norm_num) h5
  refine ⟨rfl, h5, hpos, ne_of_gt hpos, ⟨by linarith, by linarith⟩, ?_⟩
  show max 5 ((rand * 100 + 50) * (1 - 0 * 0.15)) = max 5 (rand * 100 + 50)
  norm_num

/-- Witness for C5 at the concrete draw 1/2 with level 0. -/
theorem claim5_sim_duration_range_witness :
    (0 : ℚ) ≤ 1 / 2 ∧ (1 / 2 : ℚ) < 1 ∧
    5 ≤ SimPage.simDuration 0 (1 / 2) ∧
    SimPage.simDuration 0 (1 / 2) ≠ 0 := by
  have h := claim5_sim_duration_range 0 (1 / 2) (by norm_num) (by norm_num)
  exact ⟨by norm_num, by norm_num, h.2.1, h.2.2.2.1⟩

/-- C6: in the real variant, after a sample whose resulting firstTime is f
and resulting bestTime is b, the stored optimization level equals
min 5 (max 0 ((1 - b/f) * 20)) whenever f > 0 (so b = (3/4)f, a 25% time
reduction, yields level 5), and when the guard f > 0 fails the level is left
unchanged (no division is performed). -/
theorem claim6_real_optimization_level :
    ∀ (func : RealPage.FunctionRecord) (t f b : ℚ),
      (RealPage.executeFunctionRecord func t).1.stats.firstTime = some f →
      (RealPage.executeFunctionRecord func t).1.stats.bestTime = some b →
      (0 < f →
        (RealPage.executeFunctionRecord func t).1.stats.optimizationLevel =
          min 5 (max 0 ((1 - b / f) * 20))) ∧
      (¬ 0 < f →
        (RealPage.executeFunctionRecord func t).1.stats.optimizationLevel =
          func.stats.optimizationLevel) ∧
      (0 < f → b = 3 / 4 * f →
        (RealPage.executeFunctionRecord func t).1.stats.optimizationLevel = 5) := by
  intro func t f b hf hb
  rw [RealPage.executeFunctionRecord_stats, RealPage.updateStatus_firstTime] at hf
  rw [RealPage.executeFunctionRecord_stats, RealPage.updateStatus_bestTime] at hb
  rw [RealPage.updateOptimizationLevel_firstTime] at hf
  rw [RealPage.updateOptimizationLevel_bestTime] at hb
  have hlevel := RealPage.updateOptimizationLevel_level
    (RealPage.accumulateTimes (RealPage.trackTimes func.stats t).1 t) f hf
  rw [hb] at hlevel
  simp only [Option.getD_some] at hlevel
  refine ⟨fun hpos => ?_, fun hneg => ?_, fun hpos h34 => ?_⟩
  · rw [RealPage.executeFunctionRecord_stats, RealPage.updateStatus_level,
      hlevel, if_pos hpos]
  · rw [RealPage.executeFunctionRecord_stats, RealPage.updateStatus_level,
      hlevel, if_neg hneg, RealPage.accumulateTimes_level,
      RealPage.trackTimes_level]
  · rw [RealPage.executeFunctionRecord_stats, RealPage.updateStatus_level,
      hlevel, if_pos hpos, h34]
    have hfne : f ≠ 0 := ne_of_gt hpos
    have hdiv : (3 / 4 * f) / f = (3 / 4 : ℚ) := by
      field_simp
      ring
    rw [hdiv]
    norm_num

/-- Witness for C6: the first sample of value 4 after a reset sets firstTime
and bestTime to 4, and the resulting level is min 5 (max 0 ((1 - 4/4)*20)). -/
theorem claim6_real_optimization_level_witness :
    (RealPage.executeFunctionRecord (RealPage.resetRecord sampleRealRecord)
        4).1.stats.firstTime = some 4 ∧
    (RealPage.executeFunctionRecord (RealPage.resetRecord sampleRealRecord)
        4).1.stats.bestTime = some 4 ∧
    (0 : ℚ) < 4 ∧
    (RealPage.executeFunctionRecord (RealPage.resetRecord sampleRealRecord)
        4).1.stats.optimizationLevel = min 5 (max 0 ((1 - 4 / 4) * 20)) := by
  have hf : (RealPage.executeFunctionRecord (RealPage.resetRecord sampleRealRecord)
      4).1.stats.firstTime = some 4 := by
    simp [RealPage.resetRecord, RealPage.initialStats]
  have hb : (RealPage.executeFunctionRecord (RealPage.resetRecord sampleRealRecord)
      4).1.stats.bestTime = some 4 := by
    simp [RealPage.resetRecord, RealPage.initialStats]
  exact ⟨hf, hb, by norm_num,
    (claim6_real_optimization_level _ 4 4 4 hf hb).1 (by norm_num)⟩

/-- C7: in the simulated variant, a sample bumps the level by the increment
of the status tier its updated call count falls in — +0.5 capped at 5 when
the resulting status is optimized, +0.3 capped at 4 when hot, +0.2 capped
at 2 when warming, unchanged below the first threshold (the status set by the
same branch) — and consequently the level stays within [0, 5] for every
sample sequence starting from reset. -/
theorem claim7_sim_level_increments_bounded :
    (∀ (func : SimPage.FunctionRecord) (r : ℚ),
      (SimPage.simulateExecutionRecord func r).1.stats.optimizationLevel =
        (if OPTIMIZED_THRESHOLD ≤ func.stats.callCount + 1 then
          min 5 (func.stats.optimizationLevel + 0.5)
        else if HOT_THRESHOLD ≤ func.stats.callCount + 1 then
          min 4 (func.stats.optimizationLevel + 0.3)
        else if OPTIMIZATION_THRESHOLD ≤ func.stats.callCount + 1 then
          min 2 (func.stats.optimizationLevel + 0.2)
        else func.stats.optimizationLevel) ∧
      (SimPage.simulateExecutionRecord func r).1.stats.status =
        (if OPTIMIZATION_THRESHOLD ≤ func.stats.callCount + 1 then
          classify (func.stats.callCount + 1)
        else func.stats.status)) ∧
    (∀ (func : SimPage.FunctionRecord) (rs : List ℚ),
      0 ≤ (SimPage.runDraws (SimPage.resetRecord func) rs).1.stats.optimizationLevel ∧
      (SimPage.runDraws (SimPage.resetRecord func) rs).1.stats.optimizationLevel ≤ 5) := by
  constructor
  · intro func r
    exact ⟨SimPage.simulateExecutionRecord_level func r,
      SimPage.simulateExecutionRecord_status func r⟩
  · intro func rs
    obtain ⟨hreach, -⟩ :=
      runDraws_reach rs (SimPage.resetRecord func) 0 [] (simResetRecord_reach func)
    exact ⟨hreach.level_nonneg, hreach.level_le⟩

/-- C9 counterexample: appending 51 messages to an empty log leaves 51
entries, because addLog keeps the last 50 previous lines and then appends —
so the stated cap of 50 is exceeded. -/
theorem claim9_log_cap_counterexample :
    ¬ (((List.replicate 51 "sample message").foldl
        (fun prev message => addLog prev "12:00:00" message) []).length ≤ 50) := by
  intro h
  rw [foldl_addLog_length (List.replicate 51 "sample message") "12:00:00" []
    (by simp)] at h
  simp at h

/-- C9 amended: the log is capped at 51 entries, not 50: one addLog call
yields min (previous length + 1) 51 entries (the code keeps the last 50
previous lines and appends the new one), so any sequence of appends starting
from the empty log stays at 51 entries or fewer, in both variants (they share
the same addLog body). -/
theorem claim9_log_cap_amended :
    (∀ (prev : List String) (now message : String),
      (addLog prev now message).length = min (prev.length + 1) 51) ∧
    (∀ (now : String) (msgs : List String),
      (msgs.foldl (fun prev message => addLog prev now message) []).length ≤ 51) := by
  refine ⟨addLog_length, fun now msgs => ?_⟩
  rw [foldl_addLog_length msgs now [] (by simp)]
  omega


/-- C8: reset replaces every record's statistics with the zero value —
callCount 0, totalTime 0, avgTime 0, firstTime and bestTime unset, level 0,
status cold — and empties its history, at every index in both variants,
removing no record and leaving name and displayed source text (and, in the
real variant, the workload callback and iteration count) unchanged. -/
theorem claim8_reset_zeroes_all_records :
    (RealPage.initialStats.callCount = 0 ∧ RealPage.initialStats.totalTime = 0 ∧
      RealPage.initialStats.avgTime = 0 ∧ RealPage.initialStats.firstTime = none ∧
      RealPage.initialStats.bestTime = none ∧
      RealPage.initialStats.optimizationLevel = 0 ∧
      RealPage.initialStats.status = Status.cold ∧
      SimPage.initialStats.callCount = 0 ∧ SimPage.initialStats.totalTime = 0 ∧
      SimPage.initialStats.avgTime = 0 ∧
      SimPage.initialStats.optimizationLevel = 0 ∧
      SimPage.initialStats.status = Status.cold) ∧
    (∀ (funcs : List RealPage.FunctionRecord) (i : Nat),
      (RealPage.resetAll funcs).length = funcs.length ∧
      ((RealPage.resetAll funcs)[i]?).map (fun f => f.stats) =
        (funcs[i]?).map (fun _ => RealPage.initialStats) ∧
      ((RealPage.resetAll funcs)[i]?).map (fun f => f.history) =
        (funcs[i]?).map (fun _ => ([] : List ℚ)) ∧
      ((RealPage.resetAll funcs)[i]?).map (fun f => f.name) =
        (funcs[i]?).map (fun f => f.name) ∧
      ((RealPage.resetAll funcs)[i]?).map (fun f => f.code) =
        (funcs[i]?).map (fun f => f.code) ∧
      ((RealPage.resetAll funcs)[i]?).map (fun f => f.execute) =
        (funcs[i]?).map (fun f => f.execute) ∧
      ((RealPage.resetAll funcs)[i]?).map (fun f => f.iterations) =
        (funcs[i]?).map (fun f => f.iterations)) ∧
    (∀ (funcs : List SimPage.FunctionRecord) (i : Nat),
      (SimPage.resetAll funcs).length = funcs.length ∧
      ((SimPage.resetAll funcs)[i]?).map (fun f => f.stats) =
        (funcs[i]?).map (fun _ => SimPage.initialStats) ∧
      ((SimPage.resetAll funcs)[i]?).map (fun f => f.history) =
        (funcs[i]?).map (fun _ => ([] : List ℚ)) ∧
      ((SimPage.resetAll funcs)[i]?).map (fun f => f.name) =
        (funcs[i]?).map (fun f => f.name) ∧
      ((SimPage.resetAll funcs)[i]?).map (fun f => f.code) =
        (funcs[i]?).map (fun f => f.code)) := by
  refine ⟨⟨rfl, rfl, rfl, rfl, rfl, rfl, rfl, rfl, rfl, rfl, rfl, rfl⟩, ?_, ?_⟩
  · intro funcs i
    refine ⟨by simp [RealPage.resetAll], ?_, ?_, ?_, ?_, ?_, ?_⟩ <;>
      (rw [RealPage.resetAll, List.getElem?_map, Option.map_map];
        cases funcs[i]? <;> rfl)
  · intro funcs i
    refine ⟨by simp [SimPage.resetAll], ?_, ?_, ?_, ?_⟩ <;>
      (rw [SimPage.resetAll, List.getElem?_map, Option.map_map];
        cases funcs[i]? <;> rfl)

lemma executeFunction_getElem_self (funcs : List RealPage.FunctionRecord)
    (i : Nat) (t : ℚ) :
    (RealPage.executeFunction funcs i t).1[i]? =
      (funcs[i]?).map (fun func => (RealPage.executeFunctionRecord func t).1) := by
  unfold RealPage.executeFunction
  cases h : funcs[i]? with
  | none => simpa using h
  | some func =>
    have hi : i < funcs.length := (List.getElem?_eq_some.mp h).1
    show (funcs.set i (RealPage.executeFunctionRecord func t).1)[i]? = _
    rw [List.getElem?_set_self (by simpa using hi)]
    rfl

lemma simulateExecution_getElem_self (funcs : List SimPage.FunctionRecord)
    (i : Nat) (r : ℚ) :
    (SimPage.simulateExecution funcs i r).1[i]? =
      (funcs[i]?).map (fun func => (SimPage.simulateExecutionRecord func r).1) := by
  unfold SimPage.simulateExecution
  cases h : funcs[i]? with
  | none => simpa using h
  | some func =>
    have hi : i < funcs.length := (List.getElem?_eq_some.mp h).1
    show (funcs.set i (SimPage.simulateExecutionRecord func r).1)[i]? = _
    rw [List.getElem?_set_self (by simpa using hi)]
    rfl

/-- C10: applying one sample at index i updates only the record at i — the
collection length is preserved, every other index keeps its record
unchanged, and the record at i keeps its name, source text and (real
variant) workload callback and iteration count, in both variants. -/
theorem claim10_sample_frame :
    (∀ (funcs : List RealPage.FunctionRecord) (i j : Nat) (t : ℚ),
      (RealPage.executeFunction funcs i t).1.length = funcs.length ∧
      (j ≠ i → (RealPage.executeFunction funcs i t).1[j]? = funcs[j]?)) ∧
    (∀ (funcs : List RealPage.FunctionRecord) (i : Nat) (t : ℚ),
      ((RealPage.executeFunction funcs i t).1[i]?).map (fun f => f.name) =
        (funcs[i]?).map (fun f => f.name) ∧
      ((RealPage.executeFunction funcs i t).1[i]?).map (fun f => f.code) =
        (funcs[i]?).map (fun f => f.code) ∧
      ((RealPage.executeFunction funcs i t).1[i]?).map (fun f => f.execute) =
        (funcs[i]?).map (fun f => f.execute) ∧
      ((RealPage.executeFunction funcs i t).1[i]?).map (fun f => f.iterations) =
        (funcs[i]?).map (fun f => f.iterations)) ∧
    (∀ (funcs : List SimPage.FunctionRecord) (i j : Nat) (r : ℚ),
      (SimPage.simulateExecution funcs i r).1.length = funcs.length ∧
      (j ≠ i → (SimPage.simulateExecution funcs i r).1[j]? = funcs[j]?)) ∧
    (∀ (funcs : List SimPage.FunctionRecord) (i : Nat) (r : ℚ),
      ((SimPage.simulateExecution funcs i r).1[i]?).map (fun f => f.name) =
        (funcs[i]?).map (fun f => f.name) ∧
      ((SimPage.simulateExecution funcs i r).1[i]?).map (fun f => f.code) =
        (funcs[i]?).map (fun f => f.code)) := by
  refine ⟨?_, ?_, ?_, ?_⟩
  · intro funcs i j t
    unfold RealPage.executeFunction
    cases h : funcs[i]? with
    | none => exact ⟨rfl, fun _ => rfl⟩
    | some func =>
      refine ⟨by simp, fun hj => ?_⟩
      exact List.getElem?_set_ne (fun he => hj he.symm)
  · intro funcs i t
    refine ⟨?_, ?_, ?_, ?_⟩ <;>
      (rw [executeFunction_getElem_self, Option.map_map]; cases funcs[i]? <;> simp)
  · intro funcs i j r
    unfold SimPage.simulateExecution
    cases h : funcs[i]? with
    | none => exact ⟨rfl, fun _ => rfl⟩
    | some func =>
      refine ⟨by simp, fun hj => ?_⟩
      exact List.getElem?_set_ne (fun he => hj he.symm)
  · intro funcs i r
    refine ⟨?_, ?_⟩ <;>
      (rw [simulateExecution_getElem_self, Option.map_map]; cases funcs[i]? <;> simp)

/-- Witness for C10 on a concrete two-record collection, at indices 0 and 1. -/
theorem claim10_sample_frame_witness :
    ((1 : Nat) ≠ 0) ∧
    (RealPage.executeFunction [sampleRealRecord, sampleRealRecord] 0 7).1[1]? =
      [sampleRealRecord, sampleRealRecord][1]? ∧
    ((RealPage.executeFunction [sampleRealRecord, sampleRealRecord] 0 7).1[0]?).map
        (fun f => f.name) =
      ([sampleRealRecord, sampleRealRecord][0]?).map (fun f => f.name) ∧
    ((SimPage.simulateExecution [sampleSimRecord] 0 0).1[0]?).map
        (fun f => f.code) =
      ([sampleSimRecord][0]?).map (fun f => f.code) := by
  refine ⟨by decide, ?_, ?_, ?_⟩
  · exact (claim10_sample_frame.1 [sampleRealRecord, sampleRealRecord] 0 1 7).2
      (by decide)
  · exact (claim10_sample_frame.2.1 [sampleRealRecord, sampleRealRecord] 0 7).1
  · exact (claim10_sample_frame.2.2.2 [sampleSimRecord] 0 0).2
